import Mathlib

/-!
Shallow embedding of the bmcweb logging facade
(`include/boost_formatters.hpp` together with the logging header it is
distributed with): the severity enumeration `crow::LogLevel`, the
name-to-severity table, the severity-to-systemd-priority mapping
`crow::toSystemdLevel`, the lazily initialized process-wide threshold
`crow::getBmcwebCurrentLoggingLevel`, the formatter adapters for
third-party view and pointer types, and the emission routine `crow::vlog`.

Strings are modelled as `List Char` where the C++ works on
`std::string_view`, and as `String` for assembled output.  Machine
integers (`size_t`, the pointer bit pattern) are `Nat` with an explicit
`% 2 ^ 64` where the width matters.  A thrown C++ exception escaping a
`noexcept` function terminates the process; that outcome is modelled as
`Except.error`.
-/

/-- The severity enumeration `crow::LogLevel` (`Disabled = 0` .. `Enabled = 6`). -/
inductive LogLevel where
  | Disabled
  | Critical
  | Error
  | Warning
  | Info
  | Debug
  | Enabled
  deriving DecidableEq

/-- Underlying integer value of a `LogLevel`, exactly the C++ enumerator values. -/
def LogLevel.toNat : LogLevel → Nat
  | .Disabled => 0
  | .Critical => 1
  | .Error => 2
  | .Warning => 3
  | .Info => 4
  | .Debug => 5
  | .Enabled => 6

/-- The fixed severity-to-priority table inside `crow::toSystemdLevel`
(`std::array<std::pair<LogLevel, int>, 5> mapping`). -/
def systemdMapping : List (LogLevel × Nat) :=
  [(LogLevel.Critical, 2), (LogLevel.Error, 3), (LogLevel.Warning, 4),
   (LogLevel.Info, 6), (LogLevel.Debug, 6)]

/-- `crow::toSystemdLevel`: `std::ranges::find_if` over the table; if the
level has no entry, return 6 ("Unknown log level.  Just assume debug"). -/
def toSystemdLevel (level : LogLevel) : Nat :=
  match systemdMapping.find? (fun elem => elem.fst == level) with
  | none => 6
  | some elem => elem.snd

/-- `crow::mapLogLevelFromName`: the external log-level names, index-aligned
with the enumeration. -/
def mapLogLevelFromName : List String :=
  ["DISABLED", "CRITICAL", "ERROR", "WARNING", "INFO", "DEBUG", "ENABLED"]

/-- `static_cast<LogLevel>` applied to `iter - begin`, an index into the
7-entry name table (so only 0..6 is reachable). -/
def LogLevel.ofIndex : Nat → LogLevel
  | 0 => .Disabled
  | 1 => .Critical
  | 2 => .Error
  | 3 => .Warning
  | 4 => .Info
  | 5 => .Debug
  | _ => .Enabled

/-- `crow::getLogLevelFromName`: position of the first exact match in the
name table, cast to `LogLevel`; any unrecognized name gives `Disabled`. -/
def getLogLevelFromName (name : String) : LogLevel :=
  match mapLogLevelFromName.findIdx? (fun entry => entry == name) with
  | some idx => LogLevel.ofIndex idx
  | none => LogLevel.Disabled

/-- `crow::getBmcwebCurrentLoggingLevel`: a function-local `static` resolved
from the build-time configuration string `BMCWEB_LOGGING_LEVEL` on first
access.  The one-shot cache is made explicit as an `Option LogLevel` state:
the result is the returned level paired with the state after the call. -/
def getBmcwebCurrentLoggingLevel (config : String) (cache : Option LogLevel) :
    LogLevel × Option LogLevel :=
  match cache with
  | some level => (level, some level)
  | none =>
    let level := getLogLevelFromName config
    (level, some level)

/-- The character `\x7b` (opening curly brace). -/
def lbrace : Char := Char.ofNat 123

/-- The character `\x7d` (closing curly brace). -/
def rbrace : Char := Char.ofNat 125

/-- Decimal digit character, as produced by the decimal conversions used in
`std::to_string` / `std::format` integer output. -/
def digitChar : Nat → Char
  | 0 => '0'
  | 1 => '1'
  | 2 => '2'
  | 3 => '3'
  | 4 => '4'
  | 5 => '5'
  | 6 => '6'
  | 7 => '7'
  | 8 => '8'
  | _ => '9'

/-- Fuel-driven digit accumulator: most significant digit first.  The fuel is
only a structural-recursion device; any `fuel > n` computes the digits of
`n` (proved below). -/
def natToDecimalAux : Nat → Nat → List Char → List Char
  | 0, _, acc => acc
  | fuel + 1, n, acc =>
    if n < 10 then digitChar n :: acc
    else natToDecimalAux fuel (n / 10) (digitChar (n % 10) :: acc)

/-- Decimal numeral of a natural number, the rendering used by
`std::to_string` and by `std::format` for unsigned integral arguments. -/
def natToDecimal (n : Nat) : String :=
  String.mk (natToDecimalAux (n + 1) n [])

/-- The digit list of `n` with the canonical fuel `n + 1`; `natToDecimal`
is `String.mk` of this list. -/
def digitsOf (n : Nat) : List Char :=
  natToDecimalAux (n + 1) n []

/-- Failure of the run-time formatting engine (`std::format_error` /
`fmt::format_error`). -/
inductive FormatError where
  | formatError
  deriving DecidableEq

/-- An exception escaping the `noexcept` emission routine: `std::terminate`.
The only such exception reachable in the model is the `std::out_of_range`
thrown by `std::string_view::substr` when its position exceeds the size. -/
inductive LogError where
  | outOfRange
  deriving DecidableEq

/-- A `boost::urls::grammar::string_view_base`-derived view: it exposes the
referenced character span through `data()` and `size()`. -/
structure UrlsGrammarStringView where
  data : List Char
  deriving DecidableEq

/-- `size()` of a grammar string view. -/
def UrlsGrammarStringView.size (v : UrlsGrammarStringView) : Nat :=
  v.data.length

/-- A `boost::core::string_view`: convertible to `std::string_view`
referencing the same span. -/
structure BoostCoreStringView where
  data : List Char
  deriving DecidableEq

/-- `std::string_view(msg)`: the conversion used by the
`boost::core::string_view` formatter. -/
def BoostCoreStringView.toStdStringView (v : BoostCoreStringView) : List Char :=
  v.data

/-- A `boost::urls::url_view_base`: `buffer()` returns the serialized URL. -/
structure UrlViewBase where
  buffer : List Char
  deriving DecidableEq

/-- `std::string_view(ptr, size)`: the span of `size` characters starting at
`ptr`, as built by the grammar string-view formatter from
`msg.data()` and `msg.size()`. -/
def stdStringViewOf (data : List Char) (size : Nat) : List Char :=
  data.take size

/-- The `std::formatter` specialization for types derived from
`boost::urls::grammar::string_view_base`: format `std::string_view(msg.data(), msg.size())`
with an empty format spec, i.e. emit exactly that span. -/
def formatUrlsStringView (msg : UrlsGrammarStringView) : String :=
  String.mk (stdStringViewOf msg.data msg.size)

/-- The `std::formatter` specialization for types derived from
`boost::core::string_view`: format `std::string_view(msg)`. -/
def formatBoostCoreStringView (msg : BoostCoreStringView) : String :=
  String.mk msg.toStdStringView

/-- The `std::formatter` specialization for types derived from
`boost::urls::url_view_base`: format `std::string_view(msg.buffer())`. -/
def formatUrlView (msg : UrlViewBase) : String :=
  String.mk (stdStringViewOf msg.buffer msg.buffer.length)

/-- `crow::logPtr`: `std::bit_cast<const void*>(p)` — the pointer's bit
pattern, a machine word, is preserved unchanged. -/
def logPtr (p : Nat) : Nat :=
  p % 2 ^ 64

/-- The `std::formatter<void*>` specialization:
`std::to_string(std::bit_cast<size_t>(ptr))`, the decimal numeral of the
pointer's bit pattern as an unsigned machine word. -/
def formatVoidPointer (ptr : Nat) : String :=
  natToDecimal (ptr % 2 ^ 64)

/-- A formatting argument together with the conversion rule the engine
selects for it: integral values and pointers render in decimal, strings and
the adapted view types render as their exact character content. -/
inductive LogArg where
  | natArg (n : Nat)
  | strArg (s : String)
  | ptrArg (p : Nat)
  | viewArg (v : UrlsGrammarStringView)
  | coreViewArg (v : BoostCoreStringView)
  | urlArg (u : UrlViewBase)
  deriving DecidableEq

/-- Rendering of one argument by its selected formatter. -/
def renderArg : LogArg → String
  | .natArg n => natToDecimal n
  | .strArg s => s
  | .ptrArg p => formatVoidPointer (logPtr p)
  | .viewArg v => formatUrlsStringView v
  | .coreViewArg v => formatBoostCoreStringView v
  | .urlArg u => formatUrlView u

/-- Model of the run-time formatting engine applied to the caller's template
(`std::format(std::move(format), args...)` / `fmt::vformat`): ordinary
characters pass through; an opening brace immediately followed by a closing
brace consumes the next argument and inserts its rendering; a doubled brace
is an escape; any other use of a brace, and a placeholder with no remaining
argument, raise `format_error`.  Surplus arguments are permitted, as in the
C++ engines. -/
def formatArgs : List Char → List LogArg → Except FormatError (List Char)
  | [], _ => .ok []
  | c :: rest, args =>
    if c = lbrace then
      match rest with
      | [] => .error .formatError
      | c2 :: rest2 =>
        if c2 = lbrace then
          match formatArgs rest2 args with
          | .ok out => .ok (lbrace :: out)
          | .error e => .error e
        else if c2 = rbrace then
          match args with
          | [] => .error .formatError
          | a :: args2 =>
            match formatArgs rest2 args2 with
            | .ok out => .ok ((renderArg a).toList ++ out)
            | .error e => .error e
        else .error .formatError
    else if c = rbrace then
      match rest with
      | [] => .error .formatError
      | c2 :: rest2 =>
        if c2 = rbrace then
          match formatArgs rest2 args with
          | .ok out => .ok (rbrace :: out)
          | .error e => .error e
        else .error .formatError
    else
      match formatArgs rest args with
      | .ok out => .ok (c :: out)
      | .error e => .error e

/-- Position of the last occurrence of `c`, i.e. `std::string_view::rfind(c)`
with `npos` modelled as `none`. -/
def lastIdxOf (c : Char) : List Char → Option Nat
  | [] => none
  | x :: xs =>
    match lastIdxOf c xs with
    | some i => some (i + 1)
    | none => if x = c then some 0 else none

/-- The file-name trimming in `crow::vlog`:
`filename = filename.substr(filename.rfind('/'))`, then
`if (!filename.empty()) filename.remove_prefix(1)`.
When `rfind` finds no separator it returns `npos`, and `substr(npos)` throws
`std::out_of_range`; since `vlog` is `noexcept`, that means termination,
modelled as `.error .outOfRange`. -/
def shortFileName (file : List Char) : Except LogError (List Char) :=
  match lastIdxOf '/' file with
  | none => .error .outOfRange
  | some pos =>
    let f := file.drop pos
    if f = [] then .ok f else .ok (f.drop 1)

/-- The call-site record captured by `std::source_location::current()`:
the parts `crow::vlog` reads are `file_name()` and `line()`. -/
structure SrcLoc where
  fileName : List Char
  line : Nat
  deriving DecidableEq

/-- `crow::vlog` for an already-read threshold value: gate on
`getBmcwebCurrentLoggingLevel() < level`; derive the short file name; build
`"<" priority ">[" shortFile ":" line "] "`; append the formatted message,
or the literal `Failed to format` if formatting throws; append a newline;
the resulting string is what `fwrite` hands to standard output.
`.ok none` is a suppressed call (nothing written); `.error` is the
`std::out_of_range` escaping the `noexcept` routine. -/
def vlog (threshold level : LogLevel) (tpl : List Char) (args : List LogArg)
    (loc : SrcLoc) : Except LogError (Option String) :=
  if LogLevel.toNat threshold < LogLevel.toNat level then
    .ok none
  else
    match shortFileName loc.fileName with
    | .error e => .error e
    | .ok short =>
      let heading := "<" ++ natToDecimal (toSystemdLevel level) ++ ">[" ++
        String.mk short ++ ":" ++ natToDecimal loc.line ++ "] "
      let logLocation :=
        match formatArgs tpl args with
        | .ok msg => heading ++ String.mk msg
        | .error _ => heading ++ "Failed to format"
      .ok (some (logLocation ++ "\n"))

/-- `crow::vlog` together with the threshold read: the stateful composition
of `getBmcwebCurrentLoggingLevel` and the emission routine. -/
def vlogWithState (config : String) (cache : Option LogLevel)
    (level : LogLevel) (tpl : List Char) (args : List LogArg) (loc : SrcLoc) :
    Except LogError (Option String) × Option LogLevel :=
  let r := getBmcwebCurrentLoggingLevel config cache
  (vlog r.1 level tpl args loc, r.2)

/-- The `BMCWEB_LOG_CRITICAL` entry point: delegate to `vlog` at `Critical`
with the call site's captured location. -/
def BMCWEB_LOG_CRITICAL (threshold : LogLevel) (tpl : List Char)
    (args : List LogArg) (loc : SrcLoc) : Except LogError (Option String) :=
  vlog threshold LogLevel.Critical tpl args loc

/-- The `BMCWEB_LOG_ERROR` entry point: delegate to `vlog` at `Error`. -/
def BMCWEB_LOG_ERROR (threshold : LogLevel) (tpl : List Char)
    (args : List LogArg) (loc : SrcLoc) : Except LogError (Option String) :=
  vlog threshold LogLevel.Error tpl args loc

/-- The `BMCWEB_LOG_WARNING` entry point: delegate to `vlog` at `Warning`. -/
def BMCWEB_LOG_WARNING (threshold : LogLevel) (tpl : List Char)
    (args : List LogArg) (loc : SrcLoc) : Except LogError (Option String) :=
  vlog threshold LogLevel.Warning tpl args loc

/-- The `BMCWEB_LOG_INFO` entry point: delegate to `vlog` at `Info`. -/
def BMCWEB_LOG_INFO (threshold : LogLevel) (tpl : List Char)
    (args : List LogArg) (loc : SrcLoc) : Except LogError (Option String) :=
  vlog threshold LogLevel.Info tpl args loc

/-- The `BMCWEB_LOG_DEBUG` entry point: delegate to `vlog` at `Debug`. -/
def BMCWEB_LOG_DEBUG (threshold : LogLevel) (tpl : List Char)
    (args : List LogArg) (loc : SrcLoc) : Except LogError (Option String) :=
  vlog threshold LogLevel.Debug tpl args loc

/-- Specification-side definition (the one definition written from the
spec's words, for comparison with `shortFileName`): "the substring after
the last path separator; if no separator is found, use the path unchanged". -/
def specShortFileName (file : List Char) : List Char :=
  (file.reverse.takeWhile (fun c => !(c == '/'))).reverse

/-- Base-10 value of a digit string, accumulator form. -/
def valAux (a : Nat) (l : List Char) : Nat :=
  l.foldl (fun x c => 10 * x + (c.toNat - 48)) a

/-- Base-10 value denoted by a rendered string: the "decimal numeral"
relation used to state the pointer-rendering claim. -/
def decimalVal (s : String) : Nat :=
  valAux 0 s.toList

/-! ## Helper lemmas: the decimal renderer -/

/-- The accumulator of `natToDecimalAux` is just appended on the right. -/
theorem natToDecimalAux_acc (fuel : Nat) : ∀ (n : Nat) (acc : List Char),
    natToDecimalAux fuel n acc = natToDecimalAux fuel n [] ++ acc := by
  induction fuel with
  | zero => intro n acc; simp [natToDecimalAux]
  | succ fuel ih =>
    intro n acc
    simp only [natToDecimalAux]
    by_cases h : n < 10
    · simp [h]
    · simp only [if_neg h]
      rw [ih (n / 10) (digitChar (n % 10) :: acc),
        ih (n / 10) [digitChar (n % 10)]]
      simp

/-- Any fuel strictly above `n` computes the same digit list. -/
theorem natToDecimalAux_fuel (n : Nat) : ∀ fuelA fuelB, n < fuelA → n < fuelB →
    natToDecimalAux fuelA n [] = natToDecimalAux fuelB n [] := by
  induction n using Nat.strong_induction_on with
  | _ n ih =>
    intro fuelA fuelB hA hB
    cases fuelA with
    | zero => omega
    | succ fA =>
      cases fuelB with
      | zero => omega
      | succ fB =>
        simp only [natToDecimalAux]
        by_cases h : n < 10
        · simp [h]
        · simp only [if_neg h]
          rw [natToDecimalAux_acc fA, natToDecimalAux_acc fB]
          have hd : n / 10 < n := Nat.div_lt_self (by omega) (by omega)
          rw [ih (n / 10) hd fA fB (by omega) (by omega)]

/-- Structural unfolding of the digit list. -/
theorem digitsOf_eq (n : Nat) :
    digitsOf n =
      if n < 10 then [digitChar n]
      else digitsOf (n / 10) ++ [digitChar (n % 10)] := by
  by_cases h : n < 10
  · simp only [if_pos h]
    show natToDecimalAux (n + 1) n [] = [digitChar n]
    simp [natToDecimalAux, h]
  · simp only [if_neg h]
    show natToDecimalAux (n + 1) n [] = digitsOf (n / 10) ++ [digitChar (n % 10)]
    simp only [natToDecimalAux]
    rw [if_neg h, natToDecimalAux_acc]
    have hd : n / 10 < n := Nat.div_lt_self (by omega) (by omega)
    rw [natToDecimalAux_fuel (n / 10) n (n / 10 + 1) hd (by omega)]
    rfl

/-- Every digit character is an ASCII decimal digit. -/
theorem digitChar_isDigit (m : Nat) : (digitChar m).isDigit = true := by
  rcases m with _ | _ | _ | _ | _ | _ | _ | _ | _ | m <;> rfl

/-- Code of a digit character below ten. -/
theorem digitChar_toNat (m : Nat) (h : m < 10) : (digitChar m).toNat = 48 + m := by
  interval_cases m <;> decide

/-- Every character of a decimal digit list is a decimal digit. -/
theorem digitsOf_isDigit (n : Nat) : ∀ c ∈ digitsOf n, c.isDigit = true := by
  induction n using Nat.strong_induction_on with
  | _ n ih =>
    rw [digitsOf_eq]
    by_cases h : n < 10
    · simp only [if_pos h, List.mem_singleton]
      intro c hc
      subst hc
      exact digitChar_isDigit n
    · simp only [if_neg h, List.mem_append, List.mem_singleton]
      intro c hc
      rcases hc with hc | hc
      · exact ih (n / 10) (Nat.div_lt_self (by omega) (by omega)) c hc
      · subst hc
        exact digitChar_isDigit (n % 10)

/-- Accumulating base-10 evaluation of a digit list extended on the right. -/
theorem valAux_append (a : Nat) (l : List Char) (c : Char) :
    valAux a (l ++ [c]) = 10 * valAux a (l) + (c.toNat - 48) := by
  unfold valAux
  rw [List.foldl_append]
  rfl

/-- The digit list of `n` evaluates back to `n` in base 10. -/
theorem valAux_digitsOf (n : Nat) : valAux 0 (digitsOf n) = n := by
  induction n using Nat.strong_induction_on with
  | _ n ih =>
    rw [digitsOf_eq]
    by_cases h : n < 10
    · simp only [if_pos h]
      show 10 * 0 + ((digitChar n).toNat - 48) = n
      rw [digitChar_toNat n h]
      omega
    · simp only [if_neg h]
      rw [valAux_append, ih (n / 10) (Nat.div_lt_self (by omega) (by omega)),
        digitChar_toNat (n % 10) (Nat.mod_lt n (by omega))]
      omega

/-- The rendered decimal numeral denotes the number it was built from. -/
theorem decimalVal_natToDecimal (n : Nat) : decimalVal (natToDecimal n) = n :=
  valAux_digitsOf n

/-- Every character of a rendered decimal numeral is a decimal digit. -/
theorem natToDecimal_isDigit (n : Nat) :
    ∀ c ∈ (natToDecimal n).toList, c.isDigit = true :=
  digitsOf_isDigit n

/-! ## Helper lemmas: `rfind` and the short file name -/

/-- `rfind` misses exactly when the character is absent. -/
theorem lastIdxOf_eq_none_iff (c : Char) (l : List Char) :
    lastIdxOf c l = none ↔ c ∉ l := by
  induction l with
  | nil => simp [lastIdxOf]
  | cons x xs ih =>
    simp only [lastIdxOf, List.mem_cons]
    cases h : lastIdxOf c xs with
    | some i =>
      have hmem : c ∈ xs := by
        by_contra hc
        have hnone : lastIdxOf c xs = none := ih.mpr hc
        rw [h] at hnone
        cases hnone
      simp [hmem]
    | none =>
      have hxs : c ∉ xs := ih.mp h
      by_cases hx : x = c
      · simp [hx]
      · have hcx : ¬ c = x := fun hh => hx hh.symm
        simp [hx, hxs, hcx]

/-- A found `rfind` position is inside the string. -/
theorem lastIdxOf_lt_length (c : Char) (l : List Char) : ∀ p : Nat,
    lastIdxOf c l = some p → p < l.length := by
  induction l with
  | nil => intro p h; simp [lastIdxOf] at h
  | cons x xs ih =>
    intro p h
    simp only [lastIdxOf] at h
    cases hx : lastIdxOf c xs with
    | some i =>
      rw [hx] at h
      injection h with h
      subst h
      have := ih i hx
      simp only [List.length_cons]
      omega
    | none =>
      rw [hx] at h
      by_cases hxc : x = c
      · rw [if_pos hxc] at h
        injection h with h
        subst h
        simp
      · rw [if_neg hxc] at h
        cases h

/-- `rfind` of `c` on a string ending in `c` is the final position. -/
theorem lastIdxOf_append_self (c : Char) (l : List Char) :
    lastIdxOf c (l ++ [c]) = some l.length := by
  induction l with
  | nil => simp [lastIdxOf]
  | cons x xs ih => simp [lastIdxOf, ih]

/-- `takeWhile` of "not `c`" never leaves a block containing `c`. -/
theorem takeWhile_append_of_mem (c : Char) (lA lB : List Char) (h : c ∈ lA) :
    (lA ++ lB).takeWhile (fun a => !(a == c)) =
      lA.takeWhile (fun a => !(a == c)) := by
  induction lA with
  | nil => cases h
  | cons x xs ih =>
    by_cases hx : x = c
    · subst hx
      simp [List.takeWhile_cons]
    · have hmem : c ∈ xs := by
        rcases List.mem_cons.mp h with h | h
        · exact absurd h.symm hx
        · exact h
      have hbeq : (x == c) = false := beq_eq_false_iff_ne.mpr hx
      simp only [List.cons_append, List.takeWhile_cons, hbeq, Bool.not_false,
        if_true]
      rw [ih hmem]

/-- `takeWhile` of "not `c`" passes over a block not containing `c`. -/
theorem takeWhile_append_of_not_mem (c : Char) (lA lB : List Char)
    (h : c ∉ lA) :
    (lA ++ lB).takeWhile (fun a => !(a == c)) =
      lA ++ lB.takeWhile (fun a => !(a == c)) := by
  induction lA with
  | nil => simp
  | cons x xs ih =>
    have hx : ¬ x = c := fun hh => h (hh ▸ List.mem_cons_self x xs)
    have hxs : c ∉ xs := fun hh => h (List.mem_cons_of_mem x hh)
    have hbeq : (x == c) = false := beq_eq_false_iff_ne.mpr hx
    simp only [List.cons_append, List.takeWhile_cons, hbeq, Bool.not_false,
      if_true]
    rw [ih hxs]

/-- Dropping past the last occurrence of `c` is the reversed
`takeWhile`-from-the-right: the tail after the last `c`. -/
theorem drop_lastIdxOf_succ (c : Char) (l : List Char) : ∀ p : Nat,
    lastIdxOf c l = some p →
    l.drop (p + 1) = (l.reverse.takeWhile (fun a => !(a == c))).reverse := by
  induction l with
  | nil => intro p h; simp [lastIdxOf] at h
  | cons x xs ih =>
    intro p h
    simp only [lastIdxOf] at h
    cases hx : lastIdxOf c xs with
    | some i =>
      rw [hx] at h
      injection h with h
      subst h
      have hmem : c ∈ xs := by
        by_contra hc
        rw [← lastIdxOf_eq_none_iff] at hc
        rw [hc] at hx
        cases hx
      have hmemr : c ∈ xs.reverse := List.mem_reverse.mpr hmem
      rw [List.reverse_cons, takeWhile_append_of_mem c xs.reverse [x] hmemr]
      show xs.drop (i + 1) = (xs.reverse.takeWhile (fun a => !(a == c))).reverse
      exact ih i hx
    | none =>
      rw [hx] at h
      by_cases hxc : x = c
      · rw [if_pos hxc] at h
        injection h with h
        subst h
        have hxs : c ∉ xs := (lastIdxOf_eq_none_iff c xs).mp hx
        have hxsr : c ∉ xs.reverse := fun hh => hxs (List.mem_reverse.mp hh)
        rw [hxc, List.reverse_cons,
          takeWhile_append_of_not_mem c xs.reverse [c] hxsr]
        simp
      · rw [if_neg hxc] at h
        cases h

/-- For a path containing a separator, the code's short file name agrees
with the specification's "substring after the last separator". -/
theorem shortFileName_eq_spec (file : List Char) (h : '/' ∈ file) :
    shortFileName file = .ok (specShortFileName file) := by
  unfold shortFileName
  cases hl : lastIdxOf '/' file with
  | none =>
    rw [lastIdxOf_eq_none_iff] at hl
    exact absurd h hl
  | some p =>
    have hp : p < file.length := lastIdxOf_lt_length '/' file p hl
    have hne : ¬ file.drop p = [] := by
      rw [List.drop_eq_nil_iff]
      omega
    simp only [if_neg hne]
    rw [List.drop_drop, drop_lastIdxOf_succ '/' file p hl]
    rfl

/-- A path containing a separator never makes the emission routine throw. -/
theorem shortFileName_isOk (file : List Char) (h : '/' ∈ file) :
    ∃ s, shortFileName file = .ok s :=
  ⟨specShortFileName file, shortFileName_eq_spec file h⟩

/-! ## Helper lemmas: emission and name lookup -/

/-- Unfolding of an unsuppressed `vlog` call whose file-name trimming
succeeds: the written line is the heading, then the formatted message or the
`Failed to format` placeholder, then one newline. -/
theorem vlog_eq_emit (threshold level : LogLevel) (tpl : List Char)
    (args : List LogArg) (file : List Char) (line : Nat) (short : List Char)
    (hg : ¬ LogLevel.toNat threshold < LogLevel.toNat level)
    (hs : shortFileName file = .ok short) :
    vlog threshold level tpl args ⟨file, line⟩ =
      .ok (some (("<" ++ natToDecimal (toSystemdLevel level) ++ ">[" ++
        String.mk short ++ ":" ++ natToDecimal line ++ "] ") ++
        (match formatArgs tpl args with
          | .ok msg => String.mk msg
          | .error _ => "Failed to format") ++ "\n")) := by
  unfold vlog
  rw [if_neg hg]
  show (match shortFileName file with
    | .error e => Except.error e
    | .ok short => _) = _
  rw [hs]
  cases formatArgs tpl args <;> rfl

/-- A predicate false on every element is never found, from any start. -/
theorem findIdx?_eq_none_of_all_false {α : Type} (p : α → Bool) :
    ∀ l : List α, (∀ x ∈ l, p x = false) → ∀ i, List.findIdx? p l i = none := by
  intro l
  induction l with
  | nil => intro _ i; rfl
  | cons x xs ih =>
    intro h i
    rw [List.findIdx?_cons, h x (List.mem_cons_self x xs)]
    simp only [Bool.false_eq_true, if_false]
    exact ih (fun y hy => h y (List.mem_cons_of_mem x hy)) (i + 1)

/-! ## The claims -/

/-- C1: for all severities and thresholds, an unsuppressed call (one with
`threshold < level` false under the enumeration ordering) writes a line and
a suppressed one writes nothing — the equivalence is proved for every call
whose captured file path contains a separator; at a call site whose path
has no separator the claim fails because the routine throws out of
`rfind`/`substr` instead of writing (the C4 bug), exhibited by the third
conjunct at the spec's own scenario file `server.cpp`. -/
theorem C1_level_gate :
    (∀ (threshold level : LogLevel) (tpl : List Char) (args : List LogArg)
      (file : List Char) (line : Nat), '/' ∈ file →
      ((∃ s, vlog threshold level tpl args ⟨file, line⟩ = .ok (some s)) ↔
        ¬ LogLevel.toNat threshold < LogLevel.toNat level)) ∧
    (∀ (threshold level : LogLevel) (tpl : List Char) (args : List LogArg)
      (loc : SrcLoc), LogLevel.toNat threshold < LogLevel.toNat level →
      vlog threshold level tpl args loc = .ok none) ∧
    vlog LogLevel.Info LogLevel.Error ("request failed: \x7b\x7d".toList)
      [LogArg.natArg 404] ⟨"server.cpp".toList, 42⟩ = .error .outOfRange := by
  refine ⟨?_, ?_, rfl⟩
  · intro threshold level tpl args file line hf
    constructor
    · rintro ⟨s, hs⟩ hlt
      unfold vlog at hs
      rw [if_pos hlt] at hs
      simp at hs
    · intro hg
      obtain ⟨short, hshort⟩ := shortFileName_isOk file hf
      rw [vlog_eq_emit threshold level tpl args file line short hg hshort]
      exact ⟨_, rfl⟩
  · intro threshold level tpl args loc hlt
    unfold vlog
    rw [if_pos hlt]

/-- Witness for C1 at a concrete unsuppressed call. -/
theorem C1_level_gate_witness :
    (∃ s, vlog LogLevel.Error LogLevel.Critical ("x".toList) []
      ⟨"/app/main.cpp".toList, 7⟩ = .ok (some s)) ↔
      ¬ LogLevel.toNat LogLevel.Error < LogLevel.toNat LogLevel.Critical :=
  C1_level_gate.1 LogLevel.Error LogLevel.Critical ("x".toList) []
    ("/app/main.cpp".toList) 7 (by decide)

/-- C2: whenever the formatting of the caller's template and arguments
fails in an unsuppressed call that reached the formatting step, the call
returns normally and writes exactly the already-built heading, the literal
`Failed to format`, and a single newline. -/
theorem C2_failure_containment (threshold level : LogLevel) (tpl : List Char)
    (args : List LogArg) (file : List Char) (line : Nat) (short : List Char)
    (e : FormatError)
    (hg : ¬ LogLevel.toNat threshold < LogLevel.toNat level)
    (hs : shortFileName file = .ok short)
    (hf : formatArgs tpl args = .error e) :
    vlog threshold level tpl args ⟨file, line⟩ =
      .ok (some (("<" ++ natToDecimal (toSystemdLevel level) ++ ">[" ++
        String.mk short ++ ":" ++ natToDecimal line ++ "] ") ++
        "Failed to format" ++ "\n")) := by
  rw [vlog_eq_emit threshold level tpl args file line short hg hs, hf]

/-- Witness for C2: a lone opening brace is a malformed template; the call
still emits one placeholder-terminated line. -/
theorem C2_failure_containment_witness :
    vlog LogLevel.Enabled LogLevel.Debug ("\x7b".toList) []
      ⟨"/a/b.cpp".toList, 99⟩ =
      .ok (some "<6>[b.cpp:99] Failed to format\n") :=
  C2_failure_containment LogLevel.Enabled LogLevel.Debug ("\x7b".toList) []
    ("/a/b.cpp".toList) 99 ("b.cpp".toList) .formatError (by decide) rfl rfl

/-- C3 counterexample: at the spec's own scenario (threshold `Info`, an
`Error` call of `request failed: \x7b\x7d` with argument `404` from file
`server.cpp` line 42) the routine throws instead of writing, because
`server.cpp` has no separator; and even from a path with a separator the
emitted bytes carry the priority in angle brackets, `<3>[...`, not the
claimed bare digit `3[...`. -/
theorem C3_exact_form_counterexample :
    vlog LogLevel.Info LogLevel.Error ("request failed: \x7b\x7d".toList)
      [LogArg.natArg 404] ⟨"server.cpp".toList, 42⟩ = .error .outOfRange ∧
    vlog LogLevel.Info LogLevel.Error ("request failed: \x7b\x7d".toList)
      [LogArg.natArg 404] ⟨"/app/server.cpp".toList, 42⟩ =
      .ok (some "<3>[server.cpp:42] request failed: 404\n") ∧
    "<3>[server.cpp:42] request failed: 404\n" ≠
      "3[server.cpp:42] request failed: 404\n" :=
  ⟨rfl, rfl, by decide⟩

/-- C3 amended: every accepted call that derives a short file name emits
`<priority>[shortFile:line] message\n` with literal angle brackets around
the priority digit; concretely, threshold `Info` and
`Error("request failed: \x7b\x7d", 404)` from `/app/server.cpp` line 42
produce exactly `<3>[server.cpp:42] request failed: 404\n`. -/
theorem C3_exact_form_amended :
    (∀ (threshold level : LogLevel) (tpl : List Char) (args : List LogArg)
      (file : List Char) (line : Nat) (short : List Char) (msg : List Char),
      ¬ LogLevel.toNat threshold < LogLevel.toNat level →
      shortFileName file = .ok short →
      formatArgs tpl args = .ok msg →
      vlog threshold level tpl args ⟨file, line⟩ =
        .ok (some ("<" ++ natToDecimal (toSystemdLevel level) ++ ">[" ++
          String.mk short ++ ":" ++ natToDecimal line ++ "] " ++
          String.mk msg ++ "\n"))) ∧
    BMCWEB_LOG_ERROR LogLevel.Info ("request failed: \x7b\x7d".toList)
      [LogArg.natArg 404] ⟨"/app/server.cpp".toList, 42⟩ =
      .ok (some "<3>[server.cpp:42] request failed: 404\n") := by
  refine ⟨?_, rfl⟩
  intro threshold level tpl args file line short msg hg hs hf
  rw [vlog_eq_emit threshold level tpl args file line short hg hs, hf]

/-- Witness for the amended C3 at a concrete call. -/
theorem C3_exact_form_amended_witness :
    vlog LogLevel.Info LogLevel.Warning ("ok".toList) []
      ⟨"/x/y.cpp".toList, 5⟩ = .ok (some "<4>[y.cpp:5] ok\n") :=
  C3_exact_form_amended.1 LogLevel.Info LogLevel.Warning ("ok".toList) []
    ("/x/y.cpp".toList) 5 ("y.cpp".toList) ("ok".toList) (by decide) rfl rfl

/-- C4: for every path containing a separator the code's short file name is
the substring after the last separator (the specification-side definition),
e.g. `/a/b/c.ext` gives `c.ext`; but for a path with no separator the claim
"uses the path unchanged without failing" is what the spec requires while
the code throws `std::out_of_range` from `substr(npos)` inside the
`noexcept` routine, so the call terminates instead — evaluated here at
`c.ext`. -/
theorem C4_short_file_name :
    (∀ file : List Char, '/' ∈ file →
      shortFileName file = .ok (specShortFileName file)) ∧
    shortFileName ("/a/b/c.ext".toList) = .ok ("c.ext".toList) ∧
    specShortFileName ("c.ext".toList) = "c.ext".toList ∧
    shortFileName ("c.ext".toList) = .error .outOfRange ∧
    vlog LogLevel.Enabled LogLevel.Critical ("x".toList) []
      ⟨"c.ext".toList, 1⟩ = .error .outOfRange :=
  ⟨fun file h => shortFileName_eq_spec file h, rfl, rfl, rfl, rfl⟩

/-- Witness for C4's universally quantified conjunct. -/
theorem C4_short_file_name_witness :
    shortFileName ("/a/b/c.ext".toList) =
      .ok (specShortFileName ("/a/b/c.ext".toList)) :=
  C4_short_file_name.1 ("/a/b/c.ext".toList) (by decide)

/-- C5: each of the seven recognized names resolves to the enumerator at
its exact table index, and every string outside the table resolves to
`Disabled`. -/
theorem C5_name_resolution :
    getLogLevelFromName "DISABLED" = LogLevel.ofIndex 0 ∧
    getLogLevelFromName "CRITICAL" = LogLevel.ofIndex 1 ∧
    getLogLevelFromName "ERROR" = LogLevel.ofIndex 2 ∧
    getLogLevelFromName "WARNING" = LogLevel.ofIndex 3 ∧
    getLogLevelFromName "INFO" = LogLevel.ofIndex 4 ∧
    getLogLevelFromName "DEBUG" = LogLevel.ofIndex 5 ∧
    getLogLevelFromName "ENABLED" = LogLevel.ofIndex 6 ∧
    (∀ name : String, name ∉ mapLogLevelFromName →
      getLogLevelFromName name = LogLevel.Disabled) := by
  refine ⟨rfl, rfl, rfl, rfl, rfl, rfl, rfl, ?_⟩
  intro name hname
  have hall : ∀ entry ∈ mapLogLevelFromName, (entry == name) = false := by
    intro entry hmem
    rw [beq_eq_false_iff_ne]
    intro heq
    exact hname (heq ▸ hmem)
  unfold getLogLevelFromName
  rw [findIdx?_eq_none_of_all_false _ mapLogLevelFromName hall 0]

/-- Witness for C5 at an unrecognized (lower-case) name. -/
theorem C5_name_resolution_witness :
    getLogLevelFromName "error" = LogLevel.Disabled :=
  C5_name_resolution.2.2.2.2.2.2.2 "error" (by decide)

/-- C6: the severity-to-systemd-priority mapping is total and fixed:
Critical 2, Error 3, Warning 4, Info 6, Debug 6, and the two levels with no
table entry (Disabled, Enabled) default to 6. -/
theorem C6_systemd_priority :
    toSystemdLevel LogLevel.Critical = 2 ∧
    toSystemdLevel LogLevel.Error = 3 ∧
    toSystemdLevel LogLevel.Warning = 4 ∧
    toSystemdLevel LogLevel.Info = 6 ∧
    toSystemdLevel LogLevel.Debug = 6 ∧
    toSystemdLevel LogLevel.Disabled = 6 ∧
    toSystemdLevel LogLevel.Enabled = 6 :=
  ⟨rfl, rfl, rfl, rfl, rfl, rfl, rfl⟩

/-- C7: the threshold is computed exactly once, on first access, by
resolving the configuration string through the name table; an initialized
cache is returned unchanged by every later read, a second read after any
read returns the same value and state, and the emission routine never
changes the cache beyond the read's own one-shot initialization. -/
theorem C7_threshold_once :
    (∀ config : String, getBmcwebCurrentLoggingLevel config none =
      (getLogLevelFromName config, some (getLogLevelFromName config))) ∧
    (∀ (config : String) (level : LogLevel),
      getBmcwebCurrentLoggingLevel config (some level) = (level, some level)) ∧
    (∀ (config : String) (cache : Option LogLevel),
      getBmcwebCurrentLoggingLevel config
        (getBmcwebCurrentLoggingLevel config cache).2 =
      ((getBmcwebCurrentLoggingLevel config cache).1,
        (getBmcwebCurrentLoggingLevel config cache).2)) ∧
    (∀ (config : String) (cache : Option LogLevel) (level : LogLevel)
      (tpl : List Char) (args : List LogArg) (loc : SrcLoc),
      (vlogWithState config cache level tpl args loc).2 =
        (getBmcwebCurrentLoggingLevel config cache).2) := by
  refine ⟨fun config => rfl, fun config level => rfl, ?_,
    fun _ _ _ _ _ _ => rfl⟩
  intro config cache
  cases cache <;> rfl

/-- C8: the pointer adapter renders the decimal numeral of the pointer's
bit pattern: the rendered string evaluates back to the pointer word in base
10, consists only of decimal digits (so it is not hexadecimal), and is
never the literal text `null` or `nullptr`. -/
theorem C8_pointer_decimal (p : Nat) (hp : p < 2 ^ 64) :
    decimalVal (formatVoidPointer (logPtr p)) = p ∧
    (∀ c ∈ (formatVoidPointer (logPtr p)).toList, c.isDigit = true) ∧
    formatVoidPointer (logPtr p) ≠ "null" ∧
    formatVoidPointer (logPtr p) ≠ "nullptr" := by
  have hmod : p % 2 ^ 64 = p := Nat.mod_eq_of_lt hp
  have hfmt : formatVoidPointer (logPtr p) = natToDecimal p := by
    unfold formatVoidPointer logPtr
    rw [hmod, hmod]
  refine ⟨?_, ?_, ?_, ?_⟩
  · rw [hfmt]
    exact decimalVal_natToDecimal p
  · rw [hfmt]
    exact natToDecimal_isDigit p
  · rw [hfmt]
    intro h
    have hdig : ('n' : Char).isDigit = true :=
      natToDecimal_isDigit p 'n' (by rw [h]; decide)
    exact absurd hdig (by decide)
  · rw [hfmt]
    intro h
    have hdig : ('n' : Char).isDigit = true :=
      natToDecimal_isDigit p 'n' (by rw [h]; decide)
    exact absurd hdig (by decide)

/-- Witness for C8 at a representative address. -/
theorem C8_pointer_decimal_witness :
    decimalVal (formatVoidPointer (logPtr 3735928559)) = 3735928559 ∧
    formatVoidPointer (logPtr 3735928559) ≠ "null" :=
  ⟨(C8_pointer_decimal 3735928559 (by norm_num)).1,
   (C8_pointer_decimal 3735928559 (by norm_num)).2.2.1⟩

/-- C9: the three view adapters emit exactly the referenced character span
(for the grammar and core string views) or exactly the serialized buffer
(for URL views), preserving length, so zero characters are added, removed,
escaped or quoted. -/
theorem C9_view_pass_through :
    (∀ v : UrlsGrammarStringView,
      (formatUrlsStringView v).toList = v.data ∧
      (formatUrlsStringView v).length = v.data.length) ∧
    (∀ v : BoostCoreStringView,
      (formatBoostCoreStringView v).toList = v.data ∧
      (formatBoostCoreStringView v).length = v.data.length) ∧
    (∀ u : UrlViewBase,
      (formatUrlView u).toList = u.buffer ∧
      (formatUrlView u).length = u.buffer.length) := by
  refine ⟨fun v => ?_, fun v => ⟨rfl, rfl⟩, fun u => ?_⟩
  · constructor
    · show stdStringViewOf v.data v.size = v.data
      unfold stdStringViewOf UrlsGrammarStringView.size
      exact List.take_length v.data
    · show (stdStringViewOf v.data v.size).length = v.data.length
      unfold stdStringViewOf UrlsGrammarStringView.size
      rw [List.take_length]
  · constructor
    · show stdStringViewOf u.buffer u.buffer.length = u.buffer
      unfold stdStringViewOf
      exact List.take_length u.buffer
    · show (stdStringViewOf u.buffer u.buffer.length).length = u.buffer.length
      unfold stdStringViewOf
      rw [List.take_length]

/-- C10 counterexample: for the captured path `/a/b/` (which contains and
ends with a separator) the emitted prefix carries the priority in angle
brackets, `<6>[:7] `, not the claimed bare-digit form `6[:7] `. -/
theorem C10_trailing_separator_counterexample :
    vlog LogLevel.Enabled LogLevel.Info ("m".toList) [] ⟨"/a/b/".toList, 7⟩ =
      .ok (some "<6>[:7] m\n") ∧
    "<6>[:7] m\n" ≠ "6[:7] m\n" :=
  ⟨rfl, by decide⟩

/-- C10 amended: a captured path ending in a separator yields an empty
short file name, and an accepted call from such a path emits
`<priority>[` immediately followed by `:line] `, with nothing of the text
before the trailing separator between the bracket and the colon. -/
theorem C10_trailing_separator :
    (∀ dir : List Char, shortFileName (dir ++ ['/']) = .ok []) ∧
    (∀ (threshold level : LogLevel) (tpl : List Char) (args : List LogArg)
      (dir : List Char) (line : Nat) (msg : List Char),
      ¬ LogLevel.toNat threshold < LogLevel.toNat level →
      formatArgs tpl args = .ok msg →
      vlog threshold level tpl args ⟨dir ++ ['/'], line⟩ =
        .ok (some ("<" ++ natToDecimal (toSystemdLevel level) ++ ">[" ++
          String.mk [] ++ ":" ++ natToDecimal line ++ "] " ++
          String.mk msg ++ "\n"))) := by
  have hshort : ∀ dir : List Char, shortFileName (dir ++ ['/']) = .ok [] := by
    intro dir
    unfold shortFileName
    rw [lastIdxOf_append_self]
    show (if (dir ++ ['/']).drop dir.length = [] then _ else _) = _
    rw [List.drop_left dir ['/']]
    rfl
  refine ⟨hshort, ?_⟩
  intro threshold level tpl args dir line msg hg hf
  rw [vlog_eq_emit threshold level tpl args (dir ++ ['/']) line [] hg
    (hshort dir), hf]

/-- Witness for the amended C10 at a concrete call from `/a/b/`. -/
theorem C10_trailing_separator_witness :
    vlog LogLevel.Enabled LogLevel.Info ("m".toList) [] ⟨"/a/b/".toList, 7⟩ =
      .ok (some ("<" ++ natToDecimal (toSystemdLevel LogLevel.Info) ++ ">[" ++
        String.mk [] ++ ":" ++ natToDecimal 7 ++ "] " ++
        String.mk ("m".toList) ++ "\n")) :=
  C10_trailing_separator.2 LogLevel.Enabled LogLevel.Info ("m".toList) []
    ("/a/b".toList) 7 ("m".toList) (by decide) rfl

